import Mathlib

/-!
Verification of the schema-sync logic of django-transmeta's
`sync_transmeta_db` management command
(`src/transmeta/management/commands/sync_transmeta_db.py`).

The command's methods are pure string/list computations over framework
metadata, so they are embedded shallowly:

* a Django model field (`model._meta.get_field(...)` result) is a
  `FieldMeta` carrying the attributes the command reads (`name`, `column`,
  `null`);
* the database introspection result (`get_table_description`) is a list of
  `DbColumn` (name and `null_ok` flag);
* framework/connection/settings facilities (`connection.vendor`,
  `connection.ops.quote_name`, `field.db_type(connection)`,
  `settings.LANGUAGES` via `get_languages()`,
  `settings.TRANSMETA_VALUE_DEFAULT`) are fields of an `Env` record;
* Python exceptions (`FieldDoesNotExist` escaping a lookup, and the
  `NameError` on the unbound loop variable `f`) are modelled with
  `Except Unit`: a raised exception aborts the computation and discards
  any SQL accumulated so far, exactly as in Python.
-/

/-- Decidable equality for `Except`, so that concrete runs can be checked
by `decide`. -/
instance {e a : Type} [DecidableEq e] [DecidableEq a] : DecidableEq (Except e a) := fun x y =>
  match x, y with
  | .error u, .error v =>
    if h : u = v then .isTrue (congrArg _ h)
    else .isFalse (fun hc => h (Except.error.inj hc))
  | .error _, .ok _ => .isFalse (fun hc => Except.noConfusion hc)
  | .ok _, .error _ => .isFalse (fun hc => Except.noConfusion hc)
  | .ok u, .ok v =>
    if h : u = v then .isTrue (congrArg _ h)
    else .isFalse (fun hc => h (Except.ok.inj hc))

/-- A Django model field as read by the command: its `name`, its database
`column`, and its `null` attribute. -/
structure FieldMeta where
  name : String
  column : String
  null : Bool
deriving Repr, DecidableEq

/-- One row of `introspection.get_table_description`: the command reads
`t[0]` (the column name) and `t.null_ok`. -/
structure DbColumn where
  name : String
  null_ok : Bool
deriving Repr, DecidableEq

/-- The framework facilities the command consults.  `fallback_lang` models
the language used by the one-argument call `get_real_fieldname(field_name)`
(the `transmeta` helper defaults its `lang` argument; that module is not
part of this source tree). -/
structure Env where
  vendor : String
  quote_name : String → String
  db_type : FieldMeta → String
  languages : List (String × String)
  value_default_setting : Option String
  fallback_lang : String

/-- A Django model as read by the command: its `_meta.db_table` and the
fields reachable through `_meta.get_field`. -/
structure ModelMeta where
  db_table : String
  fields : List FieldMeta
deriving Repr, DecidableEq

/-- Source line 22: `VALUE_DEFAULT = 'WITHOUT VALUE'`. -/
def VALUE_DEFAULT : String := "WITHOUT VALUE"

/-- Modelled from the spec: `get_real_fieldname` is imported from the
`transmeta` package, whose module is not under the source tree here.  Per
the spec it forms the per-language column name for a translatable field
and a language code (for example `title` and `en` give `title_en`). -/
def get_real_fieldname (field_name : String) (lang : String) : String :=
  field_name ++ "_" ++ lang

/-- `model._meta.get_field(name)`: the field with that name, or `none` when
Django would raise `FieldDoesNotExist`. -/
def getField (model : ModelMeta) (name : String) : Option FieldMeta :=
  model.fields.find? (fun f => f.name == name)

/-- Source lines 158-159: `get_value_default` reads
`settings.TRANSMETA_VALUE_DEFAULT` falling back to `VALUE_DEFAULT`. -/
def get_value_default (env : Env) : String :=
  env.value_default_setting.getD VALUE_DEFAULT

/-- Source lines 125-130: `get_db_change_languages`.  The body's first
statement is `return languages`; the list comprehension after it and the
commented-out regex loop are unreachable, so the function returns its
`languages` argument unchanged. -/
def get_db_change_languages (field_name : String) (db_table_fields : List String)
    (languages : List String) : List String :=
  languages

/-- Source lines 140-145: `was_translatable_before` is `False` exactly when
`field_name` is one of the current table's columns. -/
def was_translatable_before (field_name : String) (db_table_fields : List String) : Bool :=
  if field_name ∈ db_table_fields then false else true

/-- Source lines 118-123: `get_field_required_in_db` scans the table
description for the first column named `field_name` and returns
`not f.null_ok`, and `False` when no column matches. -/
def get_field_required_in_db (desc : List DbColumn) (field_name : String) : Bool :=
  match desc.find? (fun f => f.name == field_name) with
  | some f => !f.null_ok
  | none => false

/-- The `for lang_code, lang_name in get_languages()` loop of
`get_default_field` (source lines 148-152): return the first per-language
field whose `null` is false; a missing per-language field raises
`FieldDoesNotExist`, which this loop does not catch. -/
def get_default_field_scan (model : ModelMeta) (field_name : String) :
    List (String × String) → Except Unit (Option FieldMeta)
  | [] => .ok none
  | (lang_code, _) :: rest =>
    match getField model (get_real_fieldname field_name lang_code) with
    | none => .error ()
    | some f =>
      if f.null = false then .ok (some f)
      else get_default_field_scan model field_name rest

/-- Source lines 147-156: `get_default_field`.  After the loop it returns
`model._meta.get_field(field_name)`, catching `FieldDoesNotExist` and
returning `None` in that case. -/
def get_default_field (env : Env) (field_name : String) (model : ModelMeta) :
    Except Unit (Option FieldMeta) :=
  match get_default_field_scan model field_name env.languages with
  | .error e => .error e
  | .ok (some f) => .ok (some f)
  | .ok none => .ok (getField model field_name)

/-- Source lines 161-169: `get_type_of_db_field`.  When `get_default_field`
gives no field it falls back to `model._meta.get_field(get_real_fieldname(field_name))`
(one-argument form, modelled with `env.fallback_lang`); that lookup's
`FieldDoesNotExist` is not caught here.  `field.db_type(connection)` is the
framework call `env.db_type`. -/
def get_type_of_db_field (env : Env) (field_name : String) (model : ModelMeta) :
    Except Unit String :=
  match get_default_field env field_name model with
  | .error e => .error e
  | .ok (some field) => .ok (env.db_type field)
  | .ok none =>
    match getField model (get_real_fieldname field_name env.fallback_lang) with
    | some field => .ok (env.db_type field)
    | none => .error ()

/-- The per-call context of `get_sync_sql`: the command state
(`self.default_lang`, the connection/settings in `env`, the introspection
snapshot `desc`) together with the arguments `field_name`, `model` and
`db_table_fields`. -/
structure SyncCtx where
  env : Env
  default_lang : String
  field_name : String
  model : ModelMeta
  db_table_fields : List String
  desc : List DbColumn

/-- Source line 177: `was_translatable_before = self.was_translatable_before(field_name, db_table_fields)`. -/
def SyncCtx.wtb (c : SyncCtx) : Bool :=
  was_translatable_before c.field_name c.db_table_fields

/-- Source lines 179-182: `default_field_required = default_field and
self.get_field_required_in_db(db_table, default_field.name)` (note it is the
field's `name`, not its `column`, that is looked up). -/
def SyncCtx.dfRequired (c : SyncCtx) (df? : Option FieldMeta) : Bool :=
  match df? with
  | some df => get_field_required_in_db c.desc df.name
  | none => false

/-- Source lines 185-191: `field_column` is `f.column` when the model has
the per-language field, and the raw generated name otherwise. -/
def sync_field_column (model : ModelMeta) (field_name lang : String) : String :=
  match getField model (get_real_fieldname field_name lang) with
  | some f => f.column
  | none => get_real_fieldname field_name lang

/-- A single-quote character, written with an escape. -/
def squote : String := "\x27"

/-- Source lines 206-208: `"ALTER TABLE %s ADD COLUMN %s" % (qn(db_table), ' '.join(field_sql))`
with `field_sql = [qn(field_column), col_type]`. -/
def addColumnStmt (c : SyncCtx) (fc ct : String) : String :=
  "ALTER TABLE " ++ c.env.quote_name c.model.db_table ++ " ADD COLUMN " ++
    c.env.quote_name fc ++ " " ++ ct

/-- Source lines 212-213: `"UPDATE %s SET %s = %s" % (qn(db_table), qn(field_column), qn(field_name))`. -/
def copyStmt (c : SyncCtx) (fc : String) : String :=
  "UPDATE " ++ c.env.quote_name c.model.db_table ++ " SET " ++
    c.env.quote_name fc ++ " = " ++ c.env.quote_name c.field_name

/-- Source lines 194, 199-200: `alter_colum_set`, which is
`'ALTER COLUMN %s SET' % qn(field_column)` except on MySQL where it is
`'MODIFY %s %s' % (qn(field_column), col_type)`. -/
def alterColumnSet (c : SyncCtx) (fc ct : String) : String :=
  if c.env.vendor = "mysql" then "MODIFY " ++ c.env.quote_name fc ++ " " ++ ct
  else "ALTER COLUMN " ++ c.env.quote_name fc ++ " SET"

/-- Source lines 196, 202-203: `alter_colum_drop`, which is
`'ALTER COLUMN %s DROP' % qn(field_column)` except on MySQL where it is
`'MODIFY %s %s' % (qn(field_column), col_type)`. -/
def alterColumnDrop (c : SyncCtx) (fc ct : String) : String :=
  if c.env.vendor = "mysql" then "MODIFY " ++ c.env.quote_name fc ++ " " ++ ct
  else "ALTER COLUMN " ++ c.env.quote_name fc ++ " DROP"

/-- Source lines 197, 201: the `not_null` keyword variable, reassigned to
`NULL` on MySQL; it is only used in the DROP-NOT-NULL statement. -/
def notNullKw (c : SyncCtx) : String :=
  if c.env.vendor = "mysql" then "NULL" else "NOT NULL"

/-- Source lines 216-217 and 238-239: `"ALTER TABLE %s %s %s" % (qn(db_table), alter_colum_set, 'NOT NULL')`. -/
def setNotNullStmt (c : SyncCtx) (fc ct : String) : String :=
  "ALTER TABLE " ++ c.env.quote_name c.model.db_table ++ " " ++
    alterColumnSet c fc ct ++ " NOT NULL"

/-- Source lines 246-249: `"ALTER TABLE %s %s %s" % (qn(db_table), alter_colum_drop, not_null)`. -/
def dropNotNullStmt (c : SyncCtx) (fc ct : String) : String :=
  "ALTER TABLE " ++ c.env.quote_name c.model.db_table ++ " " ++
    alterColumnDrop c fc ct ++ " " ++ notNullKw c

/-- Source lines 228-236: the backfill
`UPDATE <table> SET <col> = '<value_default>' WHERE <col> is NULL or <col> = '' `
(with `style.SQL_KEYWORD('NULL')` being just `NULL` under `no_style()`, and
a trailing blank as in the format string). -/
def defaultUpdateStmt (c : SyncCtx) (fc : String) : String :=
  "UPDATE " ++ c.env.quote_name c.model.db_table ++ " SET " ++
    c.env.quote_name fc ++ " = " ++ squote ++ get_value_default c.env ++ squote ++
    " WHERE " ++ c.env.quote_name fc ++ " is NULL or " ++
    c.env.quote_name fc ++ " = " ++ squote ++ squote ++ " "

/-- Source line 253: `"ALTER TABLE %s DROP COLUMN %s" % (qn(db_table), qn(field_name))`. -/
def dropColumnStmt (c : SyncCtx) : String :=
  "ALTER TABLE " ++ c.env.quote_name c.model.db_table ++ " DROP COLUMN " ++
    c.env.quote_name c.field_name

/-- The rebinding of the Python loop variable `f` performed by the
`try`/`except` at source lines 185-191: `f` is rebound when
`model._meta.get_field(new_field)` succeeds and otherwise keeps its
previous binding (it is simply left unassigned by the `except` branch). -/
def nextF (c : SyncCtx) (fB : Option FieldMeta) (lang : String) : Option FieldMeta :=
  match getField c.model (get_real_fieldname c.field_name lang) with
  | some f => some f
  | none => fB

/-- Source lines 205-208: the column-creation part of one loop iteration,
emitted exactly when `new_field not in db_table_fields`. -/
def addPart (c : SyncCtx) (lang ct : String) : List String :=
  if get_real_fieldname c.field_name lang ∈ c.db_table_fields then []
  else [addColumnStmt c (sync_field_column c.model c.field_name lang) ct]

/-- One iteration of the `for lang in db_change_langs` loop of
`get_sync_sql` (source lines 183-249).  `df?` is the pre-computed
`default_field`; `fB` is the current binding of the Python loop variable
`f`, which survives across iterations.  The result is the SQL emitted by
this iteration together with the new binding of `f`; `.error` models an
exception escaping the loop body (a `FieldDoesNotExist` from
`get_type_of_db_field`, or the `NameError` on line 214 when `f` was never
bound). -/
def process_lang (c : SyncCtx) (df? : Option FieldMeta) (fB : Option FieldMeta)
    (lang : String) : Except Unit (List String × Option FieldMeta) :=
  match get_type_of_db_field c.env c.field_name c.model with
  | .error e => .error e
  | .ok col_type =>
    let new_field := get_real_fieldname c.field_name lang
    let field_column := sync_field_column c.model c.field_name lang
    if lang = c.default_lang ∧ c.wtb = false then
      match nextF c fB lang with
      | none => .error ()
      | some f =>
        .ok (addPart c lang col_type ++ copyStmt c field_column ::
          (if f.null = false then [setNotNullStmt c field_column col_type] else []),
          nextF c fB lang)
    else
      match df? with
      | some df =>
        if df.null = false then
          if lang = c.default_lang then
            let f_required := get_field_required_in_db c.desc field_column
            if df.name = new_field ∧ c.dfRequired df? = true then
              .ok (addPart c lang col_type, nextF c fB lang)
            else if f_required = false then
              .ok (addPart c lang col_type ++
                [defaultUpdateStmt c field_column,
                 setNotNullStmt c field_column col_type], nextF c fB lang)
            else .ok (addPart c lang col_type, nextF c fB lang)
          else
            let f_required := get_field_required_in_db c.desc field_column
            if f_required = true then
              .ok (addPart c lang col_type ++ [dropNotNullStmt c field_column col_type],
                nextF c fB lang)
            else .ok (addPart c lang col_type, nextF c fB lang)
        else .ok (addPart c lang col_type, nextF c fB lang)
      | none => .ok (addPart c lang col_type, nextF c fB lang)

/-- The whole `for lang in db_change_langs` loop: iterations append to
`sql_output` and thread the binding of `f`; an exception aborts the loop
(and, in Python, the whole call). -/
def process_langs (c : SyncCtx) (df? : Option FieldMeta) :
    Option FieldMeta → List String → Except Unit (List String)
  | _, [] => .ok []
  | fB, lang :: rest =>
    match process_lang c df? fB lang with
    | .error e => .error e
    | .ok (seg, fB') =>
      match process_langs c df? fB' rest with
      | .error e => .error e
      | .ok more => .ok (seg ++ more)

/-- Source lines 171-254: `get_sync_sql`.  It computes
`was_translatable_before` and `default_field` (whose `FieldDoesNotExist`
from a missing per-language field propagates), runs the per-language loop,
and finally appends the legacy `DROP COLUMN` exactly when the field was not
translatable before. -/
def get_sync_sql (c : SyncCtx) (db_change_langs : List String) :
    Except Unit (List String) :=
  match get_default_field c.env c.field_name c.model with
  | .error e => .error e
  | .ok df? =>
    match process_langs c df? none db_change_langs with
    | .error e => .error e
    | .ok sql_output =>
      if c.wtb = false then .ok (sql_output ++ [dropColumnStmt c])
      else .ok sql_output

/-! ### String decomposition helpers -/

/-- Two strings with equal character lists are equal. -/
theorem str_ext {s t : String} (h : s.data = t.data) : s = t := by
  cases s; cases t; exact congrArg String.mk h

/-- Appending concatenates the character lists. -/
theorem str_data_append (s t : String) : (s ++ t).data = s.data ++ t.data := rfl

/-- Left-cancellation for string append. -/
theorem str_append_left_cancel {p a b : String} (h : p ++ a = p ++ b) : a = b := by
  apply str_ext
  have hd : p.data ++ a.data = p.data ++ b.data := by
    have hh := congrArg String.data h
    simpa [str_data_append] using hh
  exact List.append_cancel_left hd

/-- Strings whose leading literals differ within the first `k` characters
stay different whatever is appended. -/
theorem append_ne_append_lit (l₁ l₂ : String) (k : Nat)
    (h₁ : k ≤ l₁.data.length) (h₂ : k ≤ l₂.data.length)
    (hne : l₁.data.take k ≠ l₂.data.take k) :
    ∀ x y : String, l₁ ++ x ≠ l₂ ++ y := by
  intro x y h
  apply hne
  have hd : l₁.data ++ x.data = l₂.data ++ y.data := by
    have hh := congrArg String.data h
    simpa [str_data_append] using hh
  calc l₁.data.take k = (l₁.data ++ x.data).take k :=
        (List.take_append_of_le_length h₁).symm
    _ = (l₂.data ++ y.data).take k := by rw [hd]
    _ = l₂.data.take k := List.take_append_of_le_length h₂

/-- Strings sharing a common prefix and then differing literals are
different. -/
theorem ne_of_parts (p a b x y : String) (h : ∀ u v : String, a ++ u ≠ b ++ v) :
    p ++ (a ++ x) ≠ p ++ (b ++ y) := fun he => h x y (str_append_left_cancel he)

/-! ### Loop facts -/

/-- A successful loop over `lang :: rest` decomposes into a successful first
iteration and a successful remaining loop. -/
theorem process_langs_cons_inv {c : SyncCtx} {df? fB : Option FieldMeta}
    {lang : String} {rest : List String} {out : List String}
    (h : process_langs c df? fB (lang :: rest) = .ok out) :
    ∃ seg fB' more, process_lang c df? fB lang = .ok (seg, fB') ∧
      process_langs c df? fB' rest = .ok more ∧ out = seg ++ more := by
  unfold process_langs at h
  cases h1 : process_lang c df? fB lang with
  | error e => rw [h1] at h; simp at h
  | ok p =>
    obtain ⟨seg, fB'⟩ := p
    rw [h1] at h
    dsimp only at h
    cases h2 : process_langs c df? fB' rest with
    | error e => rw [h2] at h; simp at h
    | ok more =>
      rw [h2] at h
      simp only [Except.ok.injEq] at h
      exact ⟨seg, fB', more, rfl, h2, h.symm⟩

/-- A statement produced by every possible run of one language's iteration
is in the output of any successful loop containing that language. -/
theorem mem_of_seg_mem {c : SyncCtx} {df? : Option FieldMeta} {x lang : String}
    (hseg : ∀ fB seg fB', process_lang c df? fB lang = .ok (seg, fB') → x ∈ seg) :
    ∀ {langs : List String} {fB : Option FieldMeta} {out : List String},
      lang ∈ langs → process_langs c df? fB langs = .ok out → x ∈ out := by
  intro langs
  induction langs with
  | nil => intro fB out h; simp at h
  | cons hd tl ih =>
    intro fB out hmem hok
    obtain ⟨seg, fB', more, h1, h2, h3⟩ := process_langs_cons_inv hok
    subst h3
    rcases List.mem_cons.1 hmem with heq | hmem'
    · subst heq; exact List.mem_append_left _ (hseg fB seg fB' h1)
    · exact List.mem_append_right _ (ih hmem' h2)

/-- A contiguous block produced by every possible run of one language's
iteration appears contiguously in the output of any successful loop
containing that language. -/
theorem infix_of_seg {c : SyncCtx} {df? : Option FieldMeta} {pat : List String}
    {lang : String}
    (hseg : ∀ fB seg fB', process_lang c df? fB lang = .ok (seg, fB') →
      ∃ p q, seg = p ++ (pat ++ q)) :
    ∀ {langs : List String} {fB : Option FieldMeta} {out : List String},
      lang ∈ langs → process_langs c df? fB langs = .ok out →
      ∃ p q, out = p ++ (pat ++ q) := by
  intro langs
  induction langs with
  | nil => intro fB out h; simp at h
  | cons hd tl ih =>
    intro fB out hmem hok
    obtain ⟨seg, fB', more, h1, h2, h3⟩ := process_langs_cons_inv hok
    subst h3
    rcases List.mem_cons.1 hmem with heq | hmem'
    · subst heq
      obtain ⟨p, q, hpq⟩ := hseg fB seg fB' h1
      exact ⟨p, q ++ more, by simp [hpq]⟩
    · obtain ⟨p, q, hpq⟩ := ih hmem' h2
      exact ⟨seg ++ p, q, by simp [hpq]⟩

/-- Every statement in a successful loop's output comes from some
iteration. -/
theorem mem_process_langs_inv {c : SyncCtx} {df? : Option FieldMeta} :
    ∀ {langs : List String} {fB : Option FieldMeta} {out : List String},
      process_langs c df? fB langs = .ok out → ∀ s ∈ out,
      ∃ lang, lang ∈ langs ∧
        ∃ fB₁ seg fB₂, process_lang c df? fB₁ lang = .ok (seg, fB₂) ∧ s ∈ seg := by
  intro langs
  induction langs with
  | nil =>
    intro fB out hok s hs
    unfold process_langs at hok
    simp only [Except.ok.injEq] at hok
    subst hok; simp at hs
  | cons hd tl ih =>
    intro fB out hok s hs
    obtain ⟨seg, fB', more, h1, h2, h3⟩ := process_langs_cons_inv hok
    subst h3
    rcases List.mem_append.1 hs with hmem | hmem
    · exact ⟨hd, List.mem_cons_self _ _, fB, seg, fB', h1, hmem⟩
    · obtain ⟨lang, hl, w⟩ := ih h2 s hmem
      exact ⟨lang, List.mem_cons_of_mem _ hl, w⟩

/-- A successful `get_sync_sql` run decomposes into `default_field`
computation, the per-language loop and the optional final `DROP COLUMN`. -/
theorem get_sync_sql_ok_inv {c : SyncCtx} {langs out : List String}
    (h : get_sync_sql c langs = .ok out) :
    ∃ df? l, get_default_field c.env c.field_name c.model = .ok df? ∧
      process_langs c df? none langs = .ok l ∧
      out = if c.wtb = false then l ++ [dropColumnStmt c] else l := by
  unfold get_sync_sql at h
  cases h1 : get_default_field c.env c.field_name c.model with
  | error e => rw [h1] at h; simp at h
  | ok df? =>
    rw [h1] at h
    dsimp only at h
    cases h2 : process_langs c df? none langs with
    | error e => rw [h2] at h; simp at h
    | ok l =>
      rw [h2] at h
      dsimp only at h
      refine ⟨df?, l, rfl, h2, ?_⟩
      by_cases hw : c.wtb = false
      · rw [if_pos hw] at h ⊢; simp only [Except.ok.injEq] at h; exact h.symm
      · rw [if_neg hw] at h ⊢; simp only [Except.ok.injEq] at h; exact h.symm

/-! ### Branch equations for one loop iteration -/

/-- Branch at source lines 210-217 when the model has the per-language
field: copy the legacy column, then `SET NOT NULL` exactly when the
(freshly bound) field `f` is non-nullable. -/
theorem process_lang_default_fresh {c : SyncCtx} {df? fB : Option FieldMeta}
    {f : FieldMeta} {ct lang : String}
    (hty : get_type_of_db_field c.env c.field_name c.model = .ok ct)
    (hlang : lang = c.default_lang) (hwtb : c.wtb = false)
    (hf : getField c.model (get_real_fieldname c.field_name lang) = some f) :
    process_lang c df? fB lang =
     .ok (addPart c lang ct ++ copyStmt c (sync_field_column c.model c.field_name lang) ::
       (if f.null = false then
         [setNotNullStmt c (sync_field_column c.model c.field_name lang) ct] else []),
       some f) := by
  unfold process_lang
  rw [hty]
  simp only [nextF, hf]
  rw [if_pos ⟨hlang, hwtb⟩]

/-- Branch at source lines 218-239, default language, column not yet
required, `continue` guard not taken: backfill with the default value and
set `NOT NULL`. -/
theorem process_lang_elif_default_emit {c : SyncCtx} {fB : Option FieldMeta}
    {df : FieldMeta} {ct lang : String}
    (hty : get_type_of_db_field c.env c.field_name c.model = .ok ct)
    (hcond : ¬(lang = c.default_lang ∧ c.wtb = false))
    (hlang : lang = c.default_lang) (hnull : df.null = false)
    (hguard : ¬(df.name = get_real_fieldname c.field_name lang ∧
      c.dfRequired (some df) = true))
    (hreq : get_field_required_in_db c.desc
      (sync_field_column c.model c.field_name lang) = false) :
    process_lang c (some df) fB lang =
     .ok (addPart c lang ct ++
       [defaultUpdateStmt c (sync_field_column c.model c.field_name lang),
        setNotNullStmt c (sync_field_column c.model c.field_name lang) ct],
       nextF c fB lang) := by
  unfold process_lang
  rw [hty]
  simp only []
  rw [if_neg hcond, if_pos hnull, if_pos hlang, if_neg hguard, if_pos hreq]

/-- Branch at source lines 240-249, non-default language with a currently
required column: drop the `NOT NULL` constraint. -/
theorem process_lang_other_required {c : SyncCtx} {fB : Option FieldMeta}
    {df : FieldMeta} {ct lang : String}
    (hty : get_type_of_db_field c.env c.field_name c.model = .ok ct)
    (hne : ¬ lang = c.default_lang) (hnull : df.null = false)
    (hreq : get_field_required_in_db c.desc
      (sync_field_column c.model c.field_name lang) = true) :
    process_lang c (some df) fB lang =
     .ok (addPart c lang ct ++
       [dropNotNullStmt c (sync_field_column c.model c.field_name lang) ct],
       nextF c fB lang) := by
  unfold process_lang
  rw [hty]
  simp only []
  rw [if_neg (fun hc => hne hc.1), if_pos hnull, if_neg hne, if_pos hreq]

/-- Branch at source lines 240-249, non-default language with a column not
currently required: nothing beyond the optional column creation. -/
theorem process_lang_other_not_required {c : SyncCtx} {fB : Option FieldMeta}
    {df : FieldMeta} {ct lang : String}
    (hty : get_type_of_db_field c.env c.field_name c.model = .ok ct)
    (hne : ¬ lang = c.default_lang) (hnull : df.null = false)
    (hreq : get_field_required_in_db c.desc
      (sync_field_column c.model c.field_name lang) = false) :
    process_lang c (some df) fB lang =
     .ok (addPart c lang ct, nextF c fB lang) := by
  unfold process_lang
  rw [hty]
  simp only []
  rw [if_neg (fun hc => hne hc.1), if_pos hnull, if_neg hne, if_neg (by simp [hreq])]

/-- Membership in the column-creation part: it forces the per-language
column to be absent from the table. -/
theorem mem_addPart {c : SyncCtx} {lang ct s : String} (h : s ∈ addPart c lang ct) :
    get_real_fieldname c.field_name lang ∉ c.db_table_fields ∧
      s = addColumnStmt c (sync_field_column c.model c.field_name lang) ct := by
  unfold addPart at h
  split at h
  · simp at h
  · next hmem => exact ⟨hmem, by simpa using h⟩

/-- Every statement emitted by one loop iteration is one of the five
formats appearing in the source: column creation, legacy copy,
`SET NOT NULL`, default-value backfill, `DROP NOT NULL`. -/
theorem mem_process_lang_forms {c : SyncCtx} {df? fB : Option FieldMeta} {lang : String}
    {seg : List String} {fB₂ : Option FieldMeta}
    (h : process_lang c df? fB lang = .ok (seg, fB₂)) :
    ∀ s ∈ seg, ∃ ct, get_type_of_db_field c.env c.field_name c.model = .ok ct ∧
      ((get_real_fieldname c.field_name lang ∉ c.db_table_fields ∧
        s = addColumnStmt c (sync_field_column c.model c.field_name lang) ct) ∨
       s = copyStmt c (sync_field_column c.model c.field_name lang) ∨
       s = setNotNullStmt c (sync_field_column c.model c.field_name lang) ct ∨
       s = defaultUpdateStmt c (sync_field_column c.model c.field_name lang) ∨
       s = dropNotNullStmt c (sync_field_column c.model c.field_name lang) ct) := by
  intro s hs
  unfold process_lang at h
  cases hty : get_type_of_db_field c.env c.field_name c.model with
  | error e => rw [hty] at h; simp at h
  | ok ct =>
    rw [hty] at h
    dsimp only at h
    refine ⟨ct, rfl, ?_⟩
    split at h
    · split at h
      · simp at h
      · rename_i f _
        simp only [Except.ok.injEq, Prod.mk.injEq] at h
        obtain ⟨hseg, hfb⟩ := h
        subst hseg
        rcases List.mem_append.1 hs with hp | hp
        · exact Or.inl (mem_addPart hp)
        · rcases List.mem_cons.1 hp with hc | hc
          · exact Or.inr (Or.inl hc)
          · by_cases hn : f.null = false
            · rw [if_pos hn] at hc
              simp only [List.mem_singleton] at hc
              exact Or.inr (Or.inr (Or.inl hc))
            · rw [if_neg hn] at hc; simp at hc
    · split at h
      · split at h
        · split at h
          · split at h
            · simp only [Except.ok.injEq, Prod.mk.injEq] at h
              obtain ⟨hseg, hfb⟩ := h
              subst hseg
              exact Or.inl (mem_addPart hs)
            · split at h
              · simp only [Except.ok.injEq, Prod.mk.injEq] at h
                obtain ⟨hseg, hfb⟩ := h
                subst hseg
                rcases List.mem_append.1 hs with hp | hp
                · exact Or.inl (mem_addPart hp)
                · simp only [List.mem_cons, List.mem_singleton] at hp
                  rcases hp with hp | hp | hp
                  · exact Or.inr (Or.inr (Or.inr (Or.inl hp)))
                  · exact Or.inr (Or.inr (Or.inl hp))
                  · simp at hp
              · simp only [Except.ok.injEq, Prod.mk.injEq] at h
                obtain ⟨hseg, hfb⟩ := h
                subst hseg
                exact Or.inl (mem_addPart hs)
          · split at h
            · simp only [Except.ok.injEq, Prod.mk.injEq] at h
              obtain ⟨hseg, hfb⟩ := h
              subst hseg
              rcases List.mem_append.1 hs with hp | hp
              · exact Or.inl (mem_addPart hp)
              · simp only [List.mem_singleton] at hp
                exact Or.inr (Or.inr (Or.inr (Or.inr hp)))
            · simp only [Except.ok.injEq, Prod.mk.injEq] at h
              obtain ⟨hseg, hfb⟩ := h
              subst hseg
              exact Or.inl (mem_addPart hs)
        · simp only [Except.ok.injEq, Prod.mk.injEq] at h
          obtain ⟨hseg, hfb⟩ := h
          subst hseg
          exact Or.inl (mem_addPart hs)
      · simp only [Except.ok.injEq, Prod.mk.injEq] at h
        obtain ⟨hseg, hfb⟩ := h
        subst hseg
        exact Or.inl (mem_addPart hs)

/-! ### Normal forms of the emitted statements -/

/-- Right-associated form of the column-creation statement. -/
theorem addColumnStmt_form (c : SyncCtx) (fc ct : String) :
    addColumnStmt c fc ct = "ALTER TABLE " ++ (c.env.quote_name c.model.db_table ++
      (" ADD COLUMN " ++ (c.env.quote_name fc ++ (" " ++ ct)))) := by
  simp only [addColumnStmt, String.append_assoc]

/-- Right-associated form of the legacy-copy statement. -/
theorem copyStmt_form (c : SyncCtx) (fc : String) :
    copyStmt c fc = "UPDATE " ++ (c.env.quote_name c.model.db_table ++
      (" SET " ++ (c.env.quote_name fc ++ (" = " ++ c.env.quote_name c.field_name)))) := by
  simp only [copyStmt, String.append_assoc]

/-- Right-associated form of the backfill statement. -/
theorem defaultUpdateStmt_form (c : SyncCtx) (fc : String) :
    defaultUpdateStmt c fc = "UPDATE " ++ (c.env.quote_name c.model.db_table ++
      (" SET " ++ (c.env.quote_name fc ++ (" = " ++ (squote ++ (get_value_default c.env ++
        (squote ++ (" WHERE " ++ (c.env.quote_name fc ++ (" is NULL or " ++
        (c.env.quote_name fc ++ (" = " ++ (squote ++ (squote ++ " ")))))))))))))) := by
  simp only [defaultUpdateStmt, String.append_assoc]

/-- Right-associated form of the `SET NOT NULL` statement on MySQL. -/
theorem setNotNullStmt_form_mysql {c : SyncCtx} (hm : c.env.vendor = "mysql")
    (fc ct : String) :
    setNotNullStmt c fc ct = "ALTER TABLE " ++ (c.env.quote_name c.model.db_table ++
      (" MODIFY " ++ (c.env.quote_name fc ++ (" " ++ (ct ++ " NOT NULL"))))) := by
  simp only [setNotNullStmt, alterColumnSet, if_pos hm, String.append_assoc]
  rfl

/-- Right-associated form of the `SET NOT NULL` statement off MySQL. -/
theorem setNotNullStmt_form_pg {c : SyncCtx} (hm : ¬ c.env.vendor = "mysql")
    (fc ct : String) :
    setNotNullStmt c fc ct = "ALTER TABLE " ++ (c.env.quote_name c.model.db_table ++
      (" ALTER COLUMN " ++ (c.env.quote_name fc ++ " SET NOT NULL"))) := by
  simp only [setNotNullStmt, alterColumnSet, if_neg hm, String.append_assoc]
  rfl

/-- Right-associated form of the `DROP NOT NULL` statement on MySQL. -/
theorem dropNotNullStmt_form_mysql {c : SyncCtx} (hm : c.env.vendor = "mysql")
    (fc ct : String) :
    dropNotNullStmt c fc ct = "ALTER TABLE " ++ (c.env.quote_name c.model.db_table ++
      (" MODIFY " ++ (c.env.quote_name fc ++ (" " ++ (ct ++ " NULL"))))) := by
  simp only [dropNotNullStmt, alterColumnDrop, notNullKw, if_pos hm, String.append_assoc]
  rfl

/-- Right-associated form of the `DROP NOT NULL` statement off MySQL. -/
theorem dropNotNullStmt_form_pg {c : SyncCtx} (hm : ¬ c.env.vendor = "mysql")
    (fc ct : String) :
    dropNotNullStmt c fc ct = "ALTER TABLE " ++ (c.env.quote_name c.model.db_table ++
      (" ALTER COLUMN " ++ (c.env.quote_name fc ++ " DROP NOT NULL"))) := by
  simp only [dropNotNullStmt, alterColumnDrop, notNullKw, if_neg hm, String.append_assoc]
  rfl

/-- Right-associated form of the legacy `DROP COLUMN` statement. -/
theorem dropColumnStmt_form (c : SyncCtx) :
    dropColumnStmt c = "ALTER TABLE " ++ (c.env.quote_name c.model.db_table ++
      (" DROP COLUMN " ++ c.env.quote_name c.field_name)) := by
  simp only [dropColumnStmt, String.append_assoc]

/-! ### The four statement shapes -/

/-- An `ALTER TABLE <table> ADD COLUMN ...` statement (column creation). -/
def isColumnCreation (c : SyncCtx) (s : String) : Prop :=
  ∃ r, s = "ALTER TABLE " ++ (c.env.quote_name c.model.db_table ++ (" ADD COLUMN " ++ r))

/-- An `UPDATE <table> SET ...` statement (data backfill). -/
def isDataBackfill (c : SyncCtx) (s : String) : Prop :=
  ∃ r, s = "UPDATE " ++ (c.env.quote_name c.model.db_table ++ (" SET " ++ r))

/-- An `ALTER TABLE <table> ALTER COLUMN ...` or `ALTER TABLE <table> MODIFY ...`
statement (nullability change). -/
def isNullabilityChange (c : SyncCtx) (s : String) : Prop :=
  ∃ r, s = "ALTER TABLE " ++ (c.env.quote_name c.model.db_table ++ (" ALTER COLUMN " ++ r)) ∨
    s = "ALTER TABLE " ++ (c.env.quote_name c.model.db_table ++ (" MODIFY " ++ r))

/-- An `ALTER TABLE <table> DROP COLUMN ...` statement (legacy column drop). -/
def isLegacyColumnDrop (c : SyncCtx) (s : String) : Prop :=
  ∃ r, s = "ALTER TABLE " ++ (c.env.quote_name c.model.db_table ++ (" DROP COLUMN " ++ r))

/-- Cancelling a two-part common prefix. -/
theorem cancel2 {p q a b : String} (h : p ++ (q ++ a) = p ++ (q ++ b)) : a = b :=
  str_append_left_cancel (str_append_left_cancel h)

theorem creation_addColumnStmt (c : SyncCtx) (fc ct : String) :
    isColumnCreation c (addColumnStmt c fc ct) :=
  ⟨c.env.quote_name fc ++ (" " ++ ct), addColumnStmt_form c fc ct⟩

theorem backfill_copyStmt (c : SyncCtx) (fc : String) :
    isDataBackfill c (copyStmt c fc) :=
  ⟨c.env.quote_name fc ++ (" = " ++ c.env.quote_name c.field_name), copyStmt_form c fc⟩

theorem backfill_defaultUpdateStmt (c : SyncCtx) (fc : String) :
    isDataBackfill c (defaultUpdateStmt c fc) :=
  ⟨_, defaultUpdateStmt_form c fc⟩

theorem nullchange_setNotNullStmt (c : SyncCtx) (fc ct : String) :
    isNullabilityChange c (setNotNullStmt c fc ct) := by
  by_cases hm : c.env.vendor = "mysql"
  · exact ⟨_, Or.inr (setNotNullStmt_form_mysql hm fc ct)⟩
  · exact ⟨_, Or.inl (setNotNullStmt_form_pg hm fc ct)⟩

theorem nullchange_dropNotNullStmt (c : SyncCtx) (fc ct : String) :
    isNullabilityChange c (dropNotNullStmt c fc ct) := by
  by_cases hm : c.env.vendor = "mysql"
  · exact ⟨_, Or.inr (dropNotNullStmt_form_mysql hm fc ct)⟩
  · exact ⟨_, Or.inl (dropNotNullStmt_form_pg hm fc ct)⟩

theorem legacy_dropColumnStmt (c : SyncCtx) :
    isLegacyColumnDrop c (dropColumnStmt c) :=
  ⟨_, dropColumnStmt_form c⟩

/-! ### Statement shapes that do not overlap -/

theorem upd_ne_alter (x y : String) : "UPDATE " ++ x ≠ "ALTER TABLE " ++ y :=
  append_ne_append_lit "UPDATE " "ALTER TABLE " 1 (by decide) (by decide) (by decide) x y

theorem not_legacy_addColumnStmt (c : SyncCtx) (fc ct : String) :
    ¬ isLegacyColumnDrop c (addColumnStmt c fc ct) := by
  intro hd
  obtain ⟨r, hr⟩ := hd
  rw [addColumnStmt_form] at hr
  exact append_ne_append_lit " ADD COLUMN " " DROP COLUMN " 2
    (by decide) (by decide) (by decide) _ _ (cancel2 hr)

theorem not_legacy_copyStmt (c : SyncCtx) (fc : String) :
    ¬ isLegacyColumnDrop c (copyStmt c fc) := by
  intro hd
  obtain ⟨r, hr⟩ := hd
  rw [copyStmt_form] at hr
  exact upd_ne_alter _ _ hr

theorem not_legacy_defaultUpdateStmt (c : SyncCtx) (fc : String) :
    ¬ isLegacyColumnDrop c (defaultUpdateStmt c fc) := by
  intro hd
  obtain ⟨r, hr⟩ := hd
  rw [defaultUpdateStmt_form] at hr
  exact upd_ne_alter _ _ hr

theorem not_legacy_setNotNullStmt (c : SyncCtx) (fc ct : String) :
    ¬ isLegacyColumnDrop c (setNotNullStmt c fc ct) := by
  intro hd
  obtain ⟨r, hr⟩ := hd
  by_cases hm : c.env.vendor = "mysql"
  · rw [setNotNullStmt_form_mysql hm] at hr
    exact append_ne_append_lit " MODIFY " " DROP COLUMN " 2
      (by decide) (by decide) (by decide) _ _ (cancel2 hr)
  · rw [setNotNullStmt_form_pg hm] at hr
    exact append_ne_append_lit " ALTER COLUMN " " DROP COLUMN " 2
      (by decide) (by decide) (by decide) _ _ (cancel2 hr)

theorem not_legacy_dropNotNullStmt (c : SyncCtx) (fc ct : String) :
    ¬ isLegacyColumnDrop c (dropNotNullStmt c fc ct) := by
  intro hd
  obtain ⟨r, hr⟩ := hd
  by_cases hm : c.env.vendor = "mysql"
  · rw [dropNotNullStmt_form_mysql hm] at hr
    exact append_ne_append_lit " MODIFY " " DROP COLUMN " 2
      (by decide) (by decide) (by decide) _ _ (cancel2 hr)
  · rw [dropNotNullStmt_form_pg hm] at hr
    exact append_ne_append_lit " ALTER COLUMN " " DROP COLUMN " 2
      (by decide) (by decide) (by decide) _ _ (cancel2 hr)

theorem not_creation_copyStmt (c : SyncCtx) (fc : String) :
    ¬ isColumnCreation c (copyStmt c fc) := by
  intro hd
  obtain ⟨r, hr⟩ := hd
  rw [copyStmt_form] at hr
  exact upd_ne_alter _ _ hr

theorem not_creation_defaultUpdateStmt (c : SyncCtx) (fc : String) :
    ¬ isColumnCreation c (defaultUpdateStmt c fc) := by
  intro hd
  obtain ⟨r, hr⟩ := hd
  rw [defaultUpdateStmt_form] at hr
  exact upd_ne_alter _ _ hr

theorem not_creation_setNotNullStmt (c : SyncCtx) (fc ct : String) :
    ¬ isColumnCreation c (setNotNullStmt c fc ct) := by
  intro hd
  obtain ⟨r, hr⟩ := hd
  by_cases hm : c.env.vendor = "mysql"
  · rw [setNotNullStmt_form_mysql hm] at hr
    exact append_ne_append_lit " MODIFY " " ADD COLUMN " 2
      (by decide) (by decide) (by decide) _ _ (cancel2 hr)
  · rw [setNotNullStmt_form_pg hm] at hr
    exact append_ne_append_lit " ALTER COLUMN " " ADD COLUMN " 3
      (by decide) (by decide) (by decide) _ _ (cancel2 hr)

theorem not_creation_dropNotNullStmt (c : SyncCtx) (fc ct : String) :
    ¬ isColumnCreation c (dropNotNullStmt c fc ct) := by
  intro hd
  obtain ⟨r, hr⟩ := hd
  by_cases hm : c.env.vendor = "mysql"
  · rw [dropNotNullStmt_form_mysql hm] at hr
    exact append_ne_append_lit " MODIFY " " ADD COLUMN " 2
      (by decide) (by decide) (by decide) _ _ (cancel2 hr)
  · rw [dropNotNullStmt_form_pg hm] at hr
    exact append_ne_append_lit " ALTER COLUMN " " ADD COLUMN " 3
      (by decide) (by decide) (by decide) _ _ (cancel2 hr)

/-! ### Concrete fixtures used by the witnesses and counterexamples -/

/-- A PostgreSQL-flavoured environment with identity quoting and a fixed
column type. -/
def tEnv : Env :=
  { vendor := "postgresql", quote_name := fun s => s,
    db_type := fun _ => "varchar(255)",
    languages := [("en", "English"), ("es", "Spanish")],
    value_default_setting := none, fallback_lang := "en" }

/-- A model with a non-nullable `title_en` and a nullable `title_es`. -/
def tModel : ModelMeta :=
  { db_table := "app_demo",
    fields := [⟨"title_en", "title_en", false⟩, ⟨"title_es", "title_es", true⟩] }

/-- A sync context over `tModel` whose table still has the legacy `title`
column and no per-language columns. -/
def tCtx : SyncCtx :=
  { env := tEnv, default_lang := "en", field_name := "title", model := tModel,
    db_table_fields := ["id", "title"],
    desc := [⟨"id", false⟩, ⟨"title", true⟩] }

/-! ### Small lookup facts -/

/-- A successful `get_field` lookup returns a field with the requested
name. -/
theorem getField_name {model : ModelMeta} {n : String} {f : FieldMeta}
    (h : getField model n = some f) : f.name = n := by
  unfold getField at h
  have hp := List.find?_some h
  simpa using hp

/-- A successful `get_field` lookup returns one of the model's fields. -/
theorem getField_mem {model : ModelMeta} {n : String} {f : FieldMeta}
    (h : getField model n = some f) : f ∈ model.fields :=
  List.mem_of_find?_eq_some h

/-- When every model field's column equals its name, `field_column` is just
the generated per-language name. -/
theorem sync_field_column_eq {model : ModelMeta} {fn lang : String}
    (hcol : ∀ g ∈ model.fields, g.column = g.name) :
    sync_field_column model fn lang = get_real_fieldname fn lang := by
  unfold sync_field_column
  cases hf : getField model (get_real_fieldname fn lang) with
  | none => rfl
  | some f =>
    have h1 := hcol f (getField_mem hf)
    have h2 := getField_name hf
    simp [h1, h2]

/-- Skipping a block of existing, nullable per-language fields in the
`get_default_field` scan. -/
theorem scan_skip {model : ModelMeta} {fn : String} :
    ∀ (pre : List (String × String)),
      (∀ p ∈ pre, ∃ g, getField model (get_real_fieldname fn p.1) = some g ∧
        g.null = true) →
      ∀ rest, get_default_field_scan model fn (pre ++ rest) =
        get_default_field_scan model fn rest := by
  intro pre
  induction pre with
  | nil => intro _ rest; rfl
  | cons hd tl ih =>
    intro hall rest
    obtain ⟨g, hg, hnull⟩ := hall hd (List.mem_cons_self _ _)
    obtain ⟨lc, ln⟩ := hd
    rw [List.cons_append]
    show (match getField model (get_real_fieldname fn lc) with
      | none => Except.error ()
      | some f => if f.null = false then Except.ok (some f)
          else get_default_field_scan model fn (tl ++ rest)) = _
    rw [hg]
    dsimp only
    rw [hnull, if_neg (by simp)]
    exact ih (fun p hp => hall p (List.mem_cons_of_mem _ hp)) rest

/-! ### Claims -/

/-- C8: for every `field_name`, `db_table_fields` and `languages`,
`get_db_change_languages` returns the `languages` list unchanged; the result
does not depend on `field_name` or on the existing columns. -/
theorem claim_C8 (field_name : String) (db_table_fields : List String)
    (languages : List String) :
    get_db_change_languages field_name db_table_fields languages = languages := rfl

/-- C9: `was_translatable_before` returns `false` if and only if
`field_name` is a member of `db_table_fields`. -/
theorem claim_C9 (field_name : String) (db_table_fields : List String) :
    was_translatable_before field_name db_table_fields = false ↔
      field_name ∈ db_table_fields := by
  unfold was_translatable_before
  by_cases h : field_name ∈ db_table_fields <;> simp [h]

/-- C10: `get_default_field` returns the first per-language field, in the
configured language order, whose `null` attribute is false (first
conjunct); when every per-language field exists and is nullable it returns
`model._meta.get_field(field_name)`, which is the base field when it exists
and `None` — not a propagated `FieldDoesNotExist` — when it does not
(second conjunct). -/
theorem claim_C10 :
    (∀ (env : Env) (field_name : String) (model : ModelMeta)
      (pre post : List (String × String)) (lc ln : String) (f : FieldMeta),
      env.languages = pre ++ (lc, ln) :: post →
      (∀ p ∈ pre, ∃ g, getField model (get_real_fieldname field_name p.1) = some g ∧
        g.null = true) →
      getField model (get_real_fieldname field_name lc) = some f →
      f.null = false →
      get_default_field env field_name model = .ok (some f)) ∧
    (∀ (env : Env) (field_name : String) (model : ModelMeta),
      (∀ p ∈ env.languages, ∃ g, getField model (get_real_fieldname field_name p.1) = some g ∧
        g.null = true) →
      get_default_field env field_name model = .ok (getField model field_name)) := by
  constructor
  · intro env field_name model pre post lc ln f hlangs hpre hf hnull
    unfold get_default_field
    rw [hlangs, scan_skip pre hpre ((lc, ln) :: post)]
    unfold get_default_field_scan
    rw [hf]
    simp [hnull]
  · intro env field_name model hall
    unfold get_default_field
    rw [show env.languages = env.languages ++ [] by simp, scan_skip env.languages hall []]
    rfl

/-- C10 witness: the first conjunct at a model whose `en` field is
non-nullable, the second at a model whose per-language fields are all
nullable and whose base field is gone (so the result is `None`). -/
theorem claim_C10_witness :
    get_default_field tEnv "title" tModel = .ok (some ⟨"title_en", "title_en", false⟩) ∧
    get_default_field tEnv "title"
      { db_table := "app_demo",
        fields := [⟨"title_en", "title_en", true⟩, ⟨"title_es", "title_es", true⟩] } =
      .ok (getField
        { db_table := "app_demo",
          fields := [⟨"title_en", "title_en", true⟩, ⟨"title_es", "title_es", true⟩] }
        "title") := by
  constructor
  · have h1 : tEnv.languages = [] ++ ("en", "English") :: [("es", "Spanish")] := by decide
    have h2 : ∀ p ∈ ([] : List (String × String)),
        ∃ g, getField tModel (get_real_fieldname "title" p.1) = some g ∧ g.null = true := by
      simp
    have h3 : getField tModel (get_real_fieldname "title" "en") =
        some ⟨"title_en", "title_en", false⟩ := by decide
    exact claim_C10.1 tEnv "title" tModel [] [("es", "Spanish")] "en" "English"
      ⟨"title_en", "title_en", false⟩ h1 h2 h3 rfl
  · exact claim_C10.2 tEnv "title" _ (by
      intro p hp
      have ht : tEnv.languages = [("en", "English"), ("es", "Spanish")] := by decide
      have hp1 : p ∈ [("en", "English"), ("es", "Spanish")] := by rwa [ht] at hp
      rcases List.mem_cons.1 hp1 with h | hp2
      · exact ⟨⟨"title_en", "title_en", true⟩, by rw [h]; decide, rfl⟩
      · rcases List.mem_cons.1 hp2 with h | h
        · exact ⟨⟨"title_es", "title_es", true⟩, by rw [h]; decide, rfl⟩
        · simp at h)

/-- When the default field exists, the column type is its `db_type`. -/
theorem get_type_of_default {env : Env} {fn : String} {model : ModelMeta} {df : FieldMeta}
    (hdf : get_default_field env fn model = .ok (some df)) :
    get_type_of_db_field env fn model = .ok (env.db_type df) := by
  unfold get_type_of_db_field
  rw [hdf]

/-- The column-creation part when the per-language column is absent. -/
theorem addPart_absent {c : SyncCtx} {lang ct : String}
    (h : get_real_fieldname c.field_name lang ∉ c.db_table_fields) :
    addPart c lang ct = [addColumnStmt c (sync_field_column c.model c.field_name lang) ct] := by
  unfold addPart
  rw [if_neg h]

/-- Every successful iteration's output starts with its column-creation
part. -/
theorem process_lang_addPart {c : SyncCtx} {df? fB : Option FieldMeta} {lang ct : String}
    {seg : List String} {fB' : Option FieldMeta}
    (hct : get_type_of_db_field c.env c.field_name c.model = .ok ct)
    (h : process_lang c df? fB lang = .ok (seg, fB')) :
    ∃ rest, seg = addPart c lang ct ++ rest := by
  unfold process_lang at h
  rw [hct] at h
  dsimp only at h
  split at h
  · split at h
    · simp at h
    · simp only [Except.ok.injEq, Prod.mk.injEq] at h
      exact ⟨_, h.1.symm⟩
  · split at h
    · split at h
      · split at h
        · split at h
          · simp only [Except.ok.injEq, Prod.mk.injEq] at h
            exact ⟨[], by rw [← h.1, List.append_nil]⟩
          · split at h
            · simp only [Except.ok.injEq, Prod.mk.injEq] at h
              exact ⟨_, h.1.symm⟩
            · simp only [Except.ok.injEq, Prod.mk.injEq] at h
              exact ⟨[], by rw [← h.1, List.append_nil]⟩
        · split at h
          · simp only [Except.ok.injEq, Prod.mk.injEq] at h
            exact ⟨_, h.1.symm⟩
          · simp only [Except.ok.injEq, Prod.mk.injEq] at h
            exact ⟨[], by rw [← h.1, List.append_nil]⟩
      · simp only [Except.ok.injEq, Prod.mk.injEq] at h
        exact ⟨[], by rw [← h.1, List.append_nil]⟩
    · simp only [Except.ok.injEq, Prod.mk.injEq] at h
      exact ⟨[], by rw [← h.1, List.append_nil]⟩

/-- C3: when the field was not translatable before, the returned list ends
with the legacy `ALTER TABLE ... DROP COLUMN` statement, placed after all
per-language statements; when the field was translatable before, no
DROP COLUMN statement is emitted at all. -/
theorem claim_C3 {c : SyncCtx} {langs out : List String}
    (hok : get_sync_sql c langs = .ok out) :
    (c.wtb = false → ∃ df? p, get_default_field c.env c.field_name c.model = .ok df? ∧
      process_langs c df? none langs = .ok p ∧ out = p ++ [dropColumnStmt c]) ∧
    (c.wtb = true → ∀ s ∈ out, ¬ isLegacyColumnDrop c s) := by
  obtain ⟨df?, l, hdf, hpl, hout⟩ := get_sync_sql_ok_inv hok
  constructor
  · intro hw
    rw [if_pos hw] at hout
    exact ⟨df?, l, hdf, hpl, hout⟩
  · intro hw
    rw [if_neg (by simp [hw])] at hout
    subst hout
    intro s hs
    obtain ⟨lang, _hl, fB₁, seg, fB₂, hone, hmem⟩ := mem_process_langs_inv hpl s hs
    obtain ⟨ct, _hct, hforms⟩ := mem_process_lang_forms hone s hmem
    rcases hforms with h | h | h | h | h
    · rw [h.2]; exact not_legacy_addColumnStmt c _ _
    · rw [h]; exact not_legacy_copyStmt c _
    · rw [h]; exact not_legacy_setNotNullStmt c _ _
    · rw [h]; exact not_legacy_defaultUpdateStmt c _
    · rw [h]; exact not_legacy_dropNotNullStmt c _ _

/-- C7: every string returned by `get_sync_sql` has one of exactly four
shapes: column creation (`ADD COLUMN`), data backfill (`UPDATE ... SET`),
nullability change (`ALTER COLUMN`/`MODIFY`), or the legacy
`DROP COLUMN`. -/
theorem claim_C7 {c : SyncCtx} {langs out : List String} {s : String}
    (hok : get_sync_sql c langs = .ok out) (hs : s ∈ out) :
    isColumnCreation c s ∨ isDataBackfill c s ∨ isNullabilityChange c s ∨
      isLegacyColumnDrop c s := by
  obtain ⟨df?, l, hdf, hpl, hout⟩ := get_sync_sql_ok_inv hok
  have hmem : s ∈ l ∨ s = dropColumnStmt c := by
    by_cases hw : c.wtb = false
    · rw [if_pos hw] at hout
      subst hout
      rcases List.mem_append.1 hs with h | h
      · exact Or.inl h
      · exact Or.inr (by simpa using h)
    · rw [if_neg hw] at hout
      subst hout
      exact Or.inl hs
  rcases hmem with hmem | heq
  · obtain ⟨lang, _, fB₁, seg, fB₂, hone, hm⟩ := mem_process_langs_inv hpl s hmem
    obtain ⟨ct, _, hforms⟩ := mem_process_lang_forms hone s hm
    rcases hforms with h | h | h | h | h
    · rw [h.2]; exact Or.inl (creation_addColumnStmt c _ ct)
    · rw [h]; exact Or.inr (Or.inl (backfill_copyStmt c _))
    · rw [h]; exact Or.inr (Or.inr (Or.inl (nullchange_setNotNullStmt c _ _)))
    · rw [h]; exact Or.inr (Or.inl (backfill_defaultUpdateStmt c _))
    · rw [h]; exact Or.inr (Or.inr (Or.inl (nullchange_dropNotNullStmt c _ _)))
  · rw [heq]; exact Or.inr (Or.inr (Or.inr (legacy_dropColumnStmt c)))

/-- C4: when a language's per-language column name is absent from
`db_table_fields`, the returned SQL contains the `ADD COLUMN` statement for
that column with the field's database column type; when the column is
already present, that language's iteration emits no `ADD COLUMN` statement
at all. -/
theorem claim_C4 {c : SyncCtx} {lang ct : String} {langs out : List String}
    {df? fB : Option FieldMeta} {seg : List String} {fB' : Option FieldMeta} {s : String}
    (hct : get_type_of_db_field c.env c.field_name c.model = .ok ct)
    (hmem : lang ∈ langs)
    (hok : get_sync_sql c langs = .ok out) :
    (get_real_fieldname c.field_name lang ∉ c.db_table_fields →
      addColumnStmt c (sync_field_column c.model c.field_name lang) ct ∈ out) ∧
    (get_real_fieldname c.field_name lang ∈ c.db_table_fields →
      process_lang c df? fB lang = .ok (seg, fB') → s ∈ seg →
        ¬ isColumnCreation c s) := by
  obtain ⟨df?0, l, hdf, hpl, hout⟩ := get_sync_sql_ok_inv hok
  constructor
  · intro habs
    have hin : addColumnStmt c (sync_field_column c.model c.field_name lang) ct ∈ l := by
      refine mem_of_seg_mem ?_ hmem hpl
      intro fB1 seg1 fB1' h1
      obtain ⟨rest, hr⟩ := process_lang_addPart hct h1
      rw [hr, addPart_absent habs]
      simp
    by_cases hw : c.wtb = false
    · rw [if_pos hw] at hout
      subst hout
      exact List.mem_append_left _ hin
    · rw [if_neg hw] at hout
      subst hout
      exact hin
  · intro hpres hone hsin
    obtain ⟨ct2, _hct2, hforms⟩ := mem_process_lang_forms hone s hsin
    rcases hforms with h | h | h | h | h
    · exact absurd hpres h.1
    · rw [h]; exact not_creation_copyStmt c _
    · rw [h]; exact not_creation_setNotNullStmt c _ _
    · rw [h]; exact not_creation_defaultUpdateStmt c _
    · rw [h]; exact not_creation_dropNotNullStmt c _ _

/-- C5: for a language distinct from the default one, with a non-null
default field, the iteration emits exactly the `DROP NOT NULL` statement
(after the optional column creation) when the column is currently required
in the database — and that statement appears in the returned SQL — and
emits no nullability statement when the column is not required. -/
theorem claim_C5 {c : SyncCtx} {df : FieldMeta} {lang : String} {langs out : List String}
    {fB : Option FieldMeta}
    (hdf : get_default_field c.env c.field_name c.model = .ok (some df))
    (hnull : df.null = false)
    (hne : lang ≠ c.default_lang)
    (hmem : lang ∈ langs)
    (hok : get_sync_sql c langs = .ok out) :
    (get_field_required_in_db c.desc (sync_field_column c.model c.field_name lang) = true →
      process_lang c (some df) fB lang =
        .ok (addPart c lang (c.env.db_type df) ++
          [dropNotNullStmt c (sync_field_column c.model c.field_name lang)
            (c.env.db_type df)],
          nextF c fB lang) ∧
      ∃ p q, out = p ++
        ([dropNotNullStmt c (sync_field_column c.model c.field_name lang)
          (c.env.db_type df)] ++ q)) ∧
    (get_field_required_in_db c.desc (sync_field_column c.model c.field_name lang) = false →
      process_lang c (some df) fB lang =
        .ok (addPart c lang (c.env.db_type df), nextF c fB lang)) := by
  have hty := get_type_of_default hdf
  obtain ⟨df?0, l, hdf0, hpl, hout⟩ := get_sync_sql_ok_inv hok
  have h0 := hdf
  rw [hdf0] at h0
  simp only [Except.ok.injEq] at h0
  subst h0
  constructor
  · intro hreq
    refine ⟨process_lang_other_required hty hne hnull hreq, ?_⟩
    have hinfix : ∃ p q, l = p ++
        ([dropNotNullStmt c (sync_field_column c.model c.field_name lang)
          (c.env.db_type df)] ++ q) := by
      refine infix_of_seg ?_ hmem hpl
      intro fB1 seg1 fB1' h1
      rw [process_lang_other_required hty hne hnull hreq] at h1
      simp only [Except.ok.injEq, Prod.mk.injEq] at h1
      exact ⟨addPart c lang (c.env.db_type df), [], by rw [← h1.1]; simp⟩
    obtain ⟨p, q, hl⟩ := hinfix
    by_cases hw : c.wtb = false
    · rw [if_pos hw] at hout
      subst hout
      exact ⟨p, q ++ [dropColumnStmt c], by rw [hl]; simp⟩
    · rw [if_neg hw] at hout
      subst hout
      exact ⟨p, q, hl⟩
  · intro hreq
    exact process_lang_other_not_required hty hne hnull hreq

/-- C2: for the default language, when the field was not translatable
before, the iteration emits the `UPDATE` copying the legacy column into the
per-language column, immediately followed by a `SET NOT NULL` exactly when
the model's per-language field for that language (the field whose column is
being filled) is non-null; the pair appears contiguously in the returned
SQL. -/
theorem claim_C2 {c : SyncCtx} {f : FieldMeta} {ct lang : String} {langs out : List String}
    {df? fB : Option FieldMeta}
    (hty : get_type_of_db_field c.env c.field_name c.model = .ok ct)
    (hlang : lang = c.default_lang)
    (hwtb : c.wtb = false)
    (hf : getField c.model (get_real_fieldname c.field_name lang) = some f)
    (hmem : lang ∈ langs)
    (hok : get_sync_sql c langs = .ok out) :
    process_lang c df? fB lang =
      .ok (addPart c lang ct ++ (copyStmt c (sync_field_column c.model c.field_name lang) ::
        (if f.null = false then
          [setNotNullStmt c (sync_field_column c.model c.field_name lang) ct] else [])),
        some f) ∧
    ∃ p q, out = p ++ ((copyStmt c (sync_field_column c.model c.field_name lang) ::
      (if f.null = false then
        [setNotNullStmt c (sync_field_column c.model c.field_name lang) ct] else [])) ++ q) := by
  constructor
  · exact process_lang_default_fresh hty hlang hwtb hf
  · obtain ⟨df?0, l, hdf0, hpl, hout⟩ := get_sync_sql_ok_inv hok
    have hinfix : ∃ p q, l = p ++
        ((copyStmt c (sync_field_column c.model c.field_name lang) ::
          (if f.null = false then
            [setNotNullStmt c (sync_field_column c.model c.field_name lang) ct] else [])) ++ q) := by
      refine infix_of_seg ?_ hmem hpl
      intro fB1 seg1 fB1' h1
      rw [process_lang_default_fresh hty hlang hwtb hf] at h1
      simp only [Except.ok.injEq, Prod.mk.injEq] at h1
      exact ⟨addPart c lang ct, [], by rw [← h1.1]; simp⟩
    obtain ⟨p, q, hl⟩ := hinfix
    rw [if_pos hwtb] at hout
    subst hout
    exact ⟨p, q ++ [dropColumnStmt c], by rw [hl]; simp⟩

/-- C1 (amended): additionally assuming the field was already translatable
before (its legacy column is absent from the table) and that model columns
coincide with field names, a default-language entry with a non-null default
field and a not-yet-required column makes `get_sync_sql` emit the
default-value backfill `UPDATE`, immediately followed by `SET NOT NULL`. -/
theorem claim_C1 {c : SyncCtx} {df : FieldMeta} {lang : String} {langs out : List String}
    (hcol : ∀ g ∈ c.model.fields, g.column = g.name)
    (hdf : get_default_field c.env c.field_name c.model = .ok (some df))
    (hnull : df.null = false)
    (hlang : lang = c.default_lang)
    (hmem : lang ∈ langs)
    (hwtb : c.wtb = true)
    (hreq : get_field_required_in_db c.desc (sync_field_column c.model c.field_name lang) = false)
    (hok : get_sync_sql c langs = .ok out) :
    ∃ p q, out = p ++
      ([defaultUpdateStmt c (sync_field_column c.model c.field_name lang),
        setNotNullStmt c (sync_field_column c.model c.field_name lang)
          (c.env.db_type df)] ++ q) := by
  have hty := get_type_of_default hdf
  have hfc : sync_field_column c.model c.field_name lang =
      get_real_fieldname c.field_name lang := sync_field_column_eq hcol
  have hguard : ¬(df.name = get_real_fieldname c.field_name lang ∧
      c.dfRequired (some df) = true) := by
    rintro ⟨h1, h2⟩
    unfold SyncCtx.dfRequired at h2
    dsimp only at h2
    rw [h1] at h2
    rw [hfc] at hreq
    rw [hreq] at h2
    exact absurd h2 (by simp)
  have hcond : ¬(lang = c.default_lang ∧ c.wtb = false) := by
    rintro ⟨_, h2⟩
    rw [hwtb] at h2
    exact absurd h2 (by simp)
  obtain ⟨df?0, l, hdf0, hpl, hout⟩ := get_sync_sql_ok_inv hok
  have h0 := hdf
  rw [hdf0] at h0
  simp only [Except.ok.injEq] at h0
  subst h0
  have hinfix : ∃ p q, l = p ++
      ([defaultUpdateStmt c (sync_field_column c.model c.field_name lang),
        setNotNullStmt c (sync_field_column c.model c.field_name lang)
          (c.env.db_type df)] ++ q) := by
    refine infix_of_seg ?_ hmem hpl
    intro fB1 seg1 fB1' h1
    rw [process_lang_elif_default_emit hty hcond hlang hnull hguard hreq] at h1
    simp only [Except.ok.injEq, Prod.mk.injEq] at h1
    exact ⟨addPart c lang (c.env.db_type df), [], by rw [← h1.1]; simp⟩
  obtain ⟨p, q, hl⟩ := hinfix
  rw [if_neg (by simp [hwtb])] at hout
  subst hout
  exact ⟨p, q, hl⟩

/-- The table before the field became translatable: the legacy `title`
column is still there, and the freshly added `title_en` column is nullable
and not yet required. -/
def cCtx1 : SyncCtx :=
  { tCtx with
    db_table_fields := ["title", "title_en"],
    desc := [⟨"title", true⟩, ⟨"title_en", true⟩] }

/-- A table that already has its per-language columns (no legacy column),
with `title_en` nullable. -/
def wCtx1 : SyncCtx :=
  { tCtx with
    db_table_fields := ["id", "title_en", "title_es"],
    desc := [⟨"id", false⟩, ⟨"title_en", true⟩, ⟨"title_es", true⟩] }

/-- A table that already has its per-language columns, all `NOT NULL`. -/
def wCtx5 : SyncCtx :=
  { tCtx with
    db_table_fields := ["id", "title_en", "title_es"],
    desc := [⟨"id", false⟩, ⟨"title_en", false⟩, ⟨"title_es", false⟩] }

/-- The SQL produced for `tCtx` over languages `en, es`. -/
def tOut1 : List String :=
  [addColumnStmt tCtx "title_en" "varchar(255)",
   copyStmt tCtx "title_en",
   setNotNullStmt tCtx "title_en" "varchar(255)",
   addColumnStmt tCtx "title_es" "varchar(255)",
   dropColumnStmt tCtx]

/-- The SQL produced for `tCtx` over the single language `en`. -/
def tOut2 : List String :=
  [addColumnStmt tCtx "title_en" "varchar(255)",
   copyStmt tCtx "title_en",
   setNotNullStmt tCtx "title_en" "varchar(255)",
   dropColumnStmt tCtx]

/-- The SQL produced for `wCtx5` over languages `en, es`. -/
def tOut5 : List String :=
  [dropNotNullStmt wCtx5 "title_es" "varchar(255)"]

/-- C1 counterexample: all the conditions of the claim hold (non-null
default field, default language, column not yet required in the database),
yet because the field was not translatable before, `get_sync_sql` emits the
legacy-copy `UPDATE` and never the claimed default-value backfill
`UPDATE ... WHERE ... NULL ...` statement. -/
theorem claim_C1_counterexample :
    get_default_field cCtx1.env cCtx1.field_name cCtx1.model =
      .ok (some ⟨"title_en", "title_en", false⟩) ∧
    "en" = cCtx1.default_lang ∧
    get_field_required_in_db cCtx1.desc
      (sync_field_column cCtx1.model cCtx1.field_name "en") = false ∧
    get_sync_sql cCtx1 ["en"] =
      .ok [copyStmt cCtx1 (sync_field_column cCtx1.model cCtx1.field_name "en"),
        setNotNullStmt cCtx1 (sync_field_column cCtx1.model cCtx1.field_name "en")
          "varchar(255)",
        dropColumnStmt cCtx1] ∧
    defaultUpdateStmt cCtx1 (sync_field_column cCtx1.model cCtx1.field_name "en") ∉
      [copyStmt cCtx1 (sync_field_column cCtx1.model cCtx1.field_name "en"),
       setNotNullStmt cCtx1 (sync_field_column cCtx1.model cCtx1.field_name "en")
         "varchar(255)",
       dropColumnStmt cCtx1] := by decide

/-- C1 witness: on a table whose field was already translatable, the
default-value backfill pair is emitted. -/
theorem claim_C1_witness :
    ∃ p q, [defaultUpdateStmt wCtx1 (sync_field_column wCtx1.model wCtx1.field_name "en"),
      setNotNullStmt wCtx1 (sync_field_column wCtx1.model wCtx1.field_name "en")
        (wCtx1.env.db_type ⟨"title_en", "title_en", false⟩)] = p ++
      ([defaultUpdateStmt wCtx1 (sync_field_column wCtx1.model wCtx1.field_name "en"),
        setNotNullStmt wCtx1 (sync_field_column wCtx1.model wCtx1.field_name "en")
          (wCtx1.env.db_type ⟨"title_en", "title_en", false⟩)] ++ q) := by
  have hcol : ∀ g ∈ wCtx1.model.fields, g.column = g.name := by decide
  have hdf : get_default_field wCtx1.env wCtx1.field_name wCtx1.model =
      .ok (some ⟨"title_en", "title_en", false⟩) := by decide
  have hok : get_sync_sql wCtx1 ["en"] =
      .ok [defaultUpdateStmt wCtx1 (sync_field_column wCtx1.model wCtx1.field_name "en"),
        setNotNullStmt wCtx1 (sync_field_column wCtx1.model wCtx1.field_name "en")
          (wCtx1.env.db_type ⟨"title_en", "title_en", false⟩)] := by decide
  exact claim_C1 hcol hdf rfl (by decide) (by decide) (by decide) (by decide) hok

/-- C2 witness: for `tCtx` and the default language the copy/`NOT NULL`
pair is produced and appears in the output. -/
theorem claim_C2_witness :
    process_lang tCtx none none "en" =
      .ok (addPart tCtx "en" "varchar(255)" ++
        (copyStmt tCtx (sync_field_column tCtx.model tCtx.field_name "en") ::
          (if (⟨"title_en", "title_en", false⟩ : FieldMeta).null = false then
            [setNotNullStmt tCtx (sync_field_column tCtx.model tCtx.field_name "en")
              "varchar(255)"] else [])),
        some ⟨"title_en", "title_en", false⟩) ∧
    ∃ p q, tOut2 = p ++
      ((copyStmt tCtx (sync_field_column tCtx.model tCtx.field_name "en") ::
        (if (⟨"title_en", "title_en", false⟩ : FieldMeta).null = false then
          [setNotNullStmt tCtx (sync_field_column tCtx.model tCtx.field_name "en")
            "varchar(255)"] else [])) ++ q) := by
  have hty : get_type_of_db_field tCtx.env tCtx.field_name tCtx.model =
      .ok "varchar(255)" := by decide
  have hf : getField tCtx.model (get_real_fieldname tCtx.field_name "en") =
      some ⟨"title_en", "title_en", false⟩ := by decide
  have hok : get_sync_sql tCtx ["en"] = .ok tOut2 := by decide
  exact claim_C2 hty (by decide) (by decide) hf (by decide) hok

/-- C3 witness: `tCtx`'s field was not translatable before, so its output
is the loop output followed by the legacy `DROP COLUMN`. -/
theorem claim_C3_witness :
    ∃ df? p, get_default_field tCtx.env tCtx.field_name tCtx.model = .ok df? ∧
      process_langs tCtx df? none ["en", "es"] = .ok p ∧
      tOut1 = p ++ [dropColumnStmt tCtx] := by
  have hok : get_sync_sql tCtx ["en", "es"] = .ok tOut1 := by decide
  exact (claim_C3 hok).1 (by decide)

/-- C4 witness: the `es` column is absent from `tCtx`'s table, so its
`ADD COLUMN` statement is in the output. -/
theorem claim_C4_witness :
    (get_real_fieldname tCtx.field_name "es" ∉ tCtx.db_table_fields →
      addColumnStmt tCtx (sync_field_column tCtx.model tCtx.field_name "es")
        "varchar(255)" ∈ tOut1) ∧
    (get_real_fieldname tCtx.field_name "es" ∈ tCtx.db_table_fields →
      process_lang tCtx none none "es" = .ok ([], none) →
      "" ∈ ([] : List String) → ¬ isColumnCreation tCtx "") := by
  have hct : get_type_of_db_field tCtx.env tCtx.field_name tCtx.model =
      .ok "varchar(255)" := by decide
  have hok : get_sync_sql tCtx ["en", "es"] = .ok tOut1 := by decide
  exact claim_C4 hct (by decide) hok

/-- C5 witness: in `wCtx5` the non-default `es` column is required, so the
`DROP NOT NULL` statement is produced and appears in the output. -/
theorem claim_C5_witness :
    (get_field_required_in_db wCtx5.desc
        (sync_field_column wCtx5.model wCtx5.field_name "es") = true →
      process_lang wCtx5 (some ⟨"title_en", "title_en", false⟩) none "es" =
        .ok (addPart wCtx5 "es" (wCtx5.env.db_type ⟨"title_en", "title_en", false⟩) ++
          [dropNotNullStmt wCtx5 (sync_field_column wCtx5.model wCtx5.field_name "es")
            (wCtx5.env.db_type ⟨"title_en", "title_en", false⟩)],
          nextF wCtx5 none "es") ∧
      ∃ p q, tOut5 = p ++
        ([dropNotNullStmt wCtx5 (sync_field_column wCtx5.model wCtx5.field_name "es")
          (wCtx5.env.db_type ⟨"title_en", "title_en", false⟩)] ++ q)) ∧
    (get_field_required_in_db wCtx5.desc
        (sync_field_column wCtx5.model wCtx5.field_name "es") = false →
      process_lang wCtx5 (some ⟨"title_en", "title_en", false⟩) none "es" =
        .ok (addPart wCtx5 "es" (wCtx5.env.db_type ⟨"title_en", "title_en", false⟩),
          nextF wCtx5 none "es")) := by
  have hdf : get_default_field wCtx5.env wCtx5.field_name wCtx5.model =
      .ok (some ⟨"title_en", "title_en", false⟩) := by decide
  have hok : get_sync_sql wCtx5 ["en", "es"] = .ok tOut5 := by decide
  exact claim_C5 hdf rfl (by decide) (by decide) hok

/-- C7 witness: the first statement of `tOut1` has the column-creation
shape. -/
theorem claim_C7_witness :
    isColumnCreation tCtx (addColumnStmt tCtx "title_en" "varchar(255)") ∨
    isDataBackfill tCtx (addColumnStmt tCtx "title_en" "varchar(255)") ∨
    isNullabilityChange tCtx (addColumnStmt tCtx "title_en" "varchar(255)") ∨
    isLegacyColumnDrop tCtx (addColumnStmt tCtx "title_en" "varchar(255)") := by
  have hok : get_sync_sql tCtx ["en", "es"] = .ok tOut1 := by decide
  exact claim_C7 hok (by decide)

/-! ### Vendor dependence (C6) -/

/-- The same sync context over the same connection with only the vendor
string changed. -/
def vendorSwap (c : SyncCtx) (v : String) : SyncCtx :=
  { c with env := { c.env with vendor := v } }

/-- Correspondence between a statement emitted on MySQL and the statement
emitted in its place on any other vendor: either the statements are
identical, or they are the `MODIFY`/`ALTER COLUMN ... SET` pair (`SET NOT
NULL`), or the `MODIFY ... NULL`/`ALTER COLUMN ... DROP NOT NULL` pair. -/
def vendorRel (c : SyncCtx) (s s' : String) : Prop :=
  s = s' ∨
  ∃ q t,
    (s = "ALTER TABLE " ++ (c.env.quote_name c.model.db_table ++
        (" MODIFY " ++ (q ++ (" " ++ (t ++ " NOT NULL"))))) ∧
      s' = "ALTER TABLE " ++ (c.env.quote_name c.model.db_table ++
        (" ALTER COLUMN " ++ (q ++ " SET NOT NULL")))) ∨
    (s = "ALTER TABLE " ++ (c.env.quote_name c.model.db_table ++
        (" MODIFY " ++ (q ++ (" " ++ (t ++ " NULL"))))) ∧
      s' = "ALTER TABLE " ++ (c.env.quote_name c.model.db_table ++
        (" ALTER COLUMN " ++ (q ++ " DROP NOT NULL"))))

/-- `vendorRel` is reflexive. -/
theorem forall₂_refl_vendorRel (c : SyncCtx) (l : List String) :
    List.Forall₂ (vendorRel c) l l :=
  List.forall₂_same.2 (fun _ _ => Or.inl rfl)

/-- The `SET NOT NULL` pair across vendors. -/
theorem vendorRel_setNN {c : SyncCtx} {v : String} (hm : c.env.vendor = "mysql")
    (hv : ¬ v = "mysql") (fc ct : String) :
    vendorRel c (setNotNullStmt c fc ct) (setNotNullStmt (vendorSwap c v) fc ct) :=
  Or.inr ⟨c.env.quote_name fc, ct,
    Or.inl ⟨setNotNullStmt_form_mysql hm fc ct,
      @setNotNullStmt_form_pg (vendorSwap c v) hv fc ct⟩⟩

/-- The `DROP NOT NULL` pair across vendors. -/
theorem vendorRel_dropNN {c : SyncCtx} {v : String} (hm : c.env.vendor = "mysql")
    (hv : ¬ v = "mysql") (fc ct : String) :
    vendorRel c (dropNotNullStmt c fc ct) (dropNotNullStmt (vendorSwap c v) fc ct) :=
  Or.inr ⟨c.env.quote_name fc, ct,
    Or.inr ⟨dropNotNullStmt_form_mysql hm fc ct,
      @dropNotNullStmt_form_pg (vendorSwap c v) hv fc ct⟩⟩

/-! ### The remaining branch equations of one iteration -/

/-- A successful iteration fixes the column type. -/
theorem process_lang_ok_type {c : SyncCtx} {df? fB : Option FieldMeta} {lang : String}
    {x : List String × Option FieldMeta}
    (h : process_lang c df? fB lang = .ok x) :
    ∃ ct, get_type_of_db_field c.env c.field_name c.model = .ok ct := by
  unfold process_lang at h
  cases hty : get_type_of_db_field c.env c.field_name c.model with
  | error e => rw [hty] at h; simp at h
  | ok ct => exact ⟨ct, rfl⟩

/-- Branch 1 with a bound `f` (fresh or stale). -/
theorem process_lang_b1_ok {c : SyncCtx} {df? fB : Option FieldMeta} {f : FieldMeta}
    {ct lang : String}
    (hty : get_type_of_db_field c.env c.field_name c.model = .ok ct)
    (hlang : lang = c.default_lang) (hwtb : c.wtb = false)
    (hnf : nextF c fB lang = some f) :
    process_lang c df? fB lang =
     .ok (addPart c lang ct ++ copyStmt c (sync_field_column c.model c.field_name lang) ::
       (if f.null = false then
         [setNotNullStmt c (sync_field_column c.model c.field_name lang) ct] else []),
       some f) := by
  unfold process_lang
  rw [hty]
  dsimp only
  rw [if_pos ⟨hlang, hwtb⟩, hnf]

/-- Branch 1 with `f` never bound: the Python `NameError`. -/
theorem process_lang_b1_err {c : SyncCtx} {df? fB : Option FieldMeta} {ct lang : String}
    (hty : get_type_of_db_field c.env c.field_name c.model = .ok ct)
    (hlang : lang = c.default_lang) (hwtb : c.wtb = false)
    (hnf : nextF c fB lang = none) :
    process_lang c df? fB lang = .error () := by
  unfold process_lang
  rw [hty]
  dsimp only
  rw [if_pos ⟨hlang, hwtb⟩, hnf]

/-- The `continue` guard at source lines 224-225. -/
theorem process_lang_guard {c : SyncCtx} {fB : Option FieldMeta} {df : FieldMeta}
    {ct lang : String}
    (hty : get_type_of_db_field c.env c.field_name c.model = .ok ct)
    (hcond : ¬(lang = c.default_lang ∧ c.wtb = false))
    (hlang : lang = c.default_lang) (hnull : df.null = false)
    (hguard : df.name = get_real_fieldname c.field_name lang ∧
      c.dfRequired (some df) = true) :
    process_lang c (some df) fB lang = .ok (addPart c lang ct, nextF c fB lang) := by
  unfold process_lang
  rw [hty]
  dsimp only
  rw [if_neg hcond, if_pos hnull, if_pos hlang, if_pos hguard]

/-- Default language, guard not taken, column already required: nothing is
emitted beyond the optional column creation. -/
theorem process_lang_default_required {c : SyncCtx} {fB : Option FieldMeta} {df : FieldMeta}
    {ct lang : String}
    (hty : get_type_of_db_field c.env c.field_name c.model = .ok ct)
    (hcond : ¬(lang = c.default_lang ∧ c.wtb = false))
    (hlang : lang = c.default_lang) (hnull : df.null = false)
    (hguard : ¬(df.name = get_real_fieldname c.field_name lang ∧
      c.dfRequired (some df) = true))
    (hreq : get_field_required_in_db c.desc
      (sync_field_column c.model c.field_name lang) = true) :
    process_lang c (some df) fB lang = .ok (addPart c lang ct, nextF c fB lang) := by
  unfold process_lang
  rw [hty]
  dsimp only
  rw [if_neg hcond, if_pos hnull, if_pos hlang, if_neg hguard, if_neg (by simp [hreq])]

/-- A nullable default field: only the optional column creation. -/
theorem process_lang_df_nullable {c : SyncCtx} {fB : Option FieldMeta} {df : FieldMeta}
    {ct lang : String}
    (hty : get_type_of_db_field c.env c.field_name c.model = .ok ct)
    (hcond : ¬(lang = c.default_lang ∧ c.wtb = false))
    (hnull : ¬ df.null = false) :
    process_lang c (some df) fB lang = .ok (addPart c lang ct, nextF c fB lang) := by
  unfold process_lang
  rw [hty]
  dsimp only
  rw [if_neg hcond, if_neg hnull]

/-- No default field: only the optional column creation. -/
theorem process_lang_df_none {c : SyncCtx} {fB : Option FieldMeta} {ct lang : String}
    (hty : get_type_of_db_field c.env c.field_name c.model = .ok ct)
    (hcond : ¬(lang = c.default_lang ∧ c.wtb = false)) :
    process_lang c none fB lang = .ok (addPart c lang ct, nextF c fB lang) := by
  unfold process_lang
  rw [hty]
  dsimp only
  rw [if_neg hcond]

/-- One iteration with the vendor swapped: same success/failure, same `f`
binding, and pointwise `vendorRel`-related statements. -/
theorem process_lang_vendor {c : SyncCtx} {v : String}
    (hm : c.env.vendor = "mysql") (hv : ¬ v = "mysql")
    {df? fB : Option FieldMeta} {lang : String}
    {seg : List String} {fB' : Option FieldMeta}
    (h : process_lang c df? fB lang = .ok (seg, fB')) :
    ∃ seg', process_lang (vendorSwap c v) df? fB lang = .ok (seg', fB') ∧
      List.Forall₂ (vendorRel c) seg seg' := by
  obtain ⟨ct, hty⟩ := process_lang_ok_type h
  have hty' : get_type_of_db_field (vendorSwap c v).env (vendorSwap c v).field_name
      (vendorSwap c v).model = .ok ct := hty
  have haddp : addPart (vendorSwap c v) lang ct = addPart c lang ct := rfl
  by_cases h1 : lang = c.default_lang ∧ c.wtb = false
  · cases hnf : nextF c fB lang with
    | none =>
      rw [process_lang_b1_err hty h1.1 h1.2 hnf] at h
      simp at h
    | some f =>
      rw [process_lang_b1_ok hty h1.1 h1.2 hnf] at h
      simp only [Except.ok.injEq, Prod.mk.injEq] at h
      obtain ⟨hseg, hfb⟩ := h
      subst hseg
      subst hfb
      refine ⟨_, process_lang_b1_ok hty' h1.1 h1.2 hnf, ?_⟩
      rw [haddp]
      refine List.rel_append (forall₂_refl_vendorRel c _) ?_
      refine List.Forall₂.cons (Or.inl rfl) ?_
      by_cases hn : f.null = false
      · rw [if_pos hn, if_pos hn]
        exact List.Forall₂.cons (vendorRel_setNN hm hv _ ct) List.Forall₂.nil
      · rw [if_neg hn, if_neg hn]
        exact List.Forall₂.nil
  · cases df? with
    | none =>
      rw [process_lang_df_none hty h1] at h
      simp only [Except.ok.injEq, Prod.mk.injEq] at h
      obtain ⟨hseg, hfb⟩ := h
      subst hseg
      subst hfb
      exact ⟨_, process_lang_df_none hty' h1, by rw [haddp]; exact forall₂_refl_vendorRel c _⟩
    | some df =>
      by_cases hnl : df.null = false
      · by_cases hld : lang = c.default_lang
        · by_cases hg : df.name = get_real_fieldname c.field_name lang ∧
              c.dfRequired (some df) = true
          · rw [process_lang_guard hty h1 hld hnl hg] at h
            simp only [Except.ok.injEq, Prod.mk.injEq] at h
            obtain ⟨hseg, hfb⟩ := h
            subst hseg
            subst hfb
            exact ⟨_, process_lang_guard hty' h1 hld hnl hg,
              by rw [haddp]; exact forall₂_refl_vendorRel c _⟩
          · by_cases hr : get_field_required_in_db c.desc
                (sync_field_column c.model c.field_name lang) = false
            · rw [process_lang_elif_default_emit hty h1 hld hnl hg hr] at h
              simp only [Except.ok.injEq, Prod.mk.injEq] at h
              obtain ⟨hseg, hfb⟩ := h
              subst hseg
              subst hfb
              refine ⟨_, process_lang_elif_default_emit hty' h1 hld hnl hg hr, ?_⟩
              rw [haddp]
              refine List.rel_append (forall₂_refl_vendorRel c _) ?_
              exact List.Forall₂.cons (Or.inl rfl)
                (List.Forall₂.cons (vendorRel_setNN hm hv _ ct) List.Forall₂.nil)
            · have hr' : get_field_required_in_db c.desc
                  (sync_field_column c.model c.field_name lang) = true := by
                revert hr
                cases get_field_required_in_db c.desc
                  (sync_field_column c.model c.field_name lang) <;> simp
              rw [process_lang_default_required hty h1 hld hnl hg hr'] at h
              simp only [Except.ok.injEq, Prod.mk.injEq] at h
              obtain ⟨hseg, hfb⟩ := h
              subst hseg
              subst hfb
              exact ⟨_, process_lang_default_required hty' h1 hld hnl hg hr',
                by rw [haddp]; exact forall₂_refl_vendorRel c _⟩
        · by_cases hr : get_field_required_in_db c.desc
              (sync_field_column c.model c.field_name lang) = true
          · rw [process_lang_other_required hty hld hnl hr] at h
            simp only [Except.ok.injEq, Prod.mk.injEq] at h
            obtain ⟨hseg, hfb⟩ := h
            subst hseg
            subst hfb
            refine ⟨_, process_lang_other_required hty' hld hnl hr, ?_⟩
            rw [haddp]
            refine List.rel_append (forall₂_refl_vendorRel c _) ?_
            exact List.Forall₂.cons (vendorRel_dropNN hm hv _ ct) List.Forall₂.nil
          · have hr' : get_field_required_in_db c.desc
                (sync_field_column c.model c.field_name lang) = false := by
              revert hr
              cases get_field_required_in_db c.desc
                (sync_field_column c.model c.field_name lang) <;> simp
            rw [process_lang_other_not_required hty hld hnl hr'] at h
            simp only [Except.ok.injEq, Prod.mk.injEq] at h
            obtain ⟨hseg, hfb⟩ := h
            subst hseg
            subst hfb
            exact ⟨_, process_lang_other_not_required hty' hld hnl hr',
              by rw [haddp]; exact forall₂_refl_vendorRel c _⟩
      · rw [process_lang_df_nullable hty h1 hnl] at h
        simp only [Except.ok.injEq, Prod.mk.injEq] at h
        obtain ⟨hseg, hfb⟩ := h
        subst hseg
        subst hfb
        exact ⟨_, process_lang_df_nullable hty' h1 hnl,
          by rw [haddp]; exact forall₂_refl_vendorRel c _⟩

/-- Rebuilding a successful loop step. -/
theorem process_langs_cons_ok {c : SyncCtx} {df? fB : Option FieldMeta} {lang : String}
    {rest : List String} {seg more : List String} {fB' : Option FieldMeta}
    (h1 : process_lang c df? fB lang = .ok (seg, fB'))
    (h2 : process_langs c df? fB' rest = .ok more) :
    process_langs c df? fB (lang :: rest) = .ok (seg ++ more) := by
  unfold process_langs
  rw [h1]
  dsimp only
  rw [h2]

/-- The whole loop with the vendor swapped. -/
theorem process_langs_vendor {c : SyncCtx} {v : String}
    (hm : c.env.vendor = "mysql") (hv : ¬ v = "mysql") {df? : Option FieldMeta} :
    ∀ {langs : List String} {fB : Option FieldMeta} {out : List String},
      process_langs c df? fB langs = .ok out →
      ∃ out', process_langs (vendorSwap c v) df? fB langs = .ok out' ∧
        List.Forall₂ (vendorRel c) out out' := by
  intro langs
  induction langs with
  | nil =>
    intro fB out h
    unfold process_langs at h
    simp only [Except.ok.injEq] at h
    subst h
    exact ⟨[], rfl, List.Forall₂.nil⟩
  | cons hd tl ih =>
    intro fB out h
    obtain ⟨seg, fB', more, h1, h2, h3⟩ := process_langs_cons_inv h
    obtain ⟨seg', h1', hrel1⟩ := process_lang_vendor hm hv h1
    obtain ⟨more', h2', hrel2⟩ := ih h2
    refine ⟨seg' ++ more', process_langs_cons_ok h1' h2', ?_⟩
    rw [h3]
    exact List.rel_append hrel1 hrel2

/-- C6: swapping the connection vendor from `mysql` to any other vendor
leaves the emitted SQL pointwise identical except for the nullability
statements, which use `MODIFY` on MySQL and `ALTER COLUMN ... SET`/
`ALTER COLUMN ... DROP` elsewhere. -/
theorem claim_C6 {c : SyncCtx} {v : String} {langs out : List String}
    (hm : c.env.vendor = "mysql") (hv : ¬ v = "mysql")
    (hok : get_sync_sql c langs = .ok out) :
    ∃ out', get_sync_sql (vendorSwap c v) langs = .ok out' ∧
      List.Forall₂ (vendorRel c) out out' := by
  obtain ⟨df?, l, hdf, hpl, hout⟩ := get_sync_sql_ok_inv hok
  obtain ⟨l', hpl', hrel⟩ := process_langs_vendor hm hv hpl
  have hdf' : get_default_field (vendorSwap c v).env (vendorSwap c v).field_name
      (vendorSwap c v).model = .ok df? := hdf
  by_cases hw : c.wtb = false
  · refine ⟨l' ++ [dropColumnStmt (vendorSwap c v)], ?_, ?_⟩
    · unfold get_sync_sql
      rw [hdf']
      dsimp only
      rw [hpl']
      dsimp only
      rw [show (vendorSwap c v).wtb = c.wtb from rfl, if_pos hw]
    · rw [hout, if_pos hw]
      exact List.rel_append hrel (List.Forall₂.cons (Or.inl rfl) List.Forall₂.nil)
  · refine ⟨l', ?_, ?_⟩
    · unfold get_sync_sql
      rw [hdf']
      dsimp only
      rw [hpl']
      dsimp only
      rw [show (vendorSwap c v).wtb = c.wtb from rfl, if_neg hw]
    · rw [hout, if_neg hw]
      exact hrel

/-- `tCtx` over a MySQL connection. -/
def mCtx : SyncCtx :=
  { tCtx with env := { tEnv with vendor := "mysql" } }

/-- The SQL produced for `mCtx` over the single language `en`. -/
def tOutM : List String :=
  [addColumnStmt mCtx "title_en" "varchar(255)",
   copyStmt mCtx "title_en",
   setNotNullStmt mCtx "title_en" "varchar(255)",
   dropColumnStmt mCtx]

/-- C6 witness: swapping `mCtx`'s vendor to `postgresql` yields pointwise
related SQL. -/
theorem claim_C6_witness :
    ∃ out', get_sync_sql (vendorSwap mCtx "postgresql") ["en"] = .ok out' ∧
      List.Forall₂ (vendorRel mCtx) tOutM out' := by
  have hok : get_sync_sql mCtx ["en"] = .ok tOutM := by decide
  exact claim_C6 rfl (by decide) hok

